import Mathlib

/-!
Shallow embedding of the duplicate-detection and cleanup engine of the
dark_web_scrapper repository.

Sources embedded here:
  * src/deduplication/cleanup_duplicates.py  (class DuplicateCleanup)
  * src/deduplication/smart_deduplicator.py  (classes BloomFilter, SmartDeduplicator)

Modelling conventions (each noted again at the definition it concerns):
  * Python strings are Lean `String`; Python string comparison (used on
    timestamps) is the lexicographic order on code points, embedded as the
    structural comparison `lexLt`.
  * Python `set` objects holding document ids are `Finset String`; `len` of a
    set is `Finset.card`.  Iteration order over a Python set is unspecified
    and no claim depends on it.
  * Python floats are idealized as rationals (where only stored/compared) or
    as real numbers (where `math.log` arithmetic is performed).
  * External library calls (hashlib.md5, opensearchpy.helpers.bulk, difflib,
    random.sample, redis, the OpenSearch client) are modelled as explicit
    parameters or abstract outcomes; the document store itself is modelled by
    the list of documents a scan returns.
-/

namespace DarkWebScraper

/-- A document as retrieved by `DuplicateCleanup.get_all_documents`: the
fields `id`, `url`, `text_content`, `html_content`, `timestamp` pulled from
each OpenSearch hit (missing fields default to the empty string). -/
structure Doc where
  id : String
  url : String
  text_content : String
  html_content : String
  timestamp : String
deriving DecidableEq, Repr

/-- The `self.stats` dictionary of `DuplicateCleanup`: counters
`processed`, `url_duplicates_removed`, `content_duplicates_removed`,
`total_removed`, `errors`, all initialized to 0 in `__init__`. -/
structure CleanupStats where
  processed : Nat
  url_duplicates_removed : Nat
  content_duplicates_removed : Nat
  total_removed : Nat
  errors : Nat
deriving DecidableEq, Repr

/-- Outcome of one call to the external bulk helper
(`opensearchpy.helpers.bulk`), as observed by `remove_documents`:
either it returns a pair `(success, failed)` or it raises an exception. -/
inductive BulkOutcome where
  | result (success : Nat) (failed : List String)
  | exn
deriving DecidableEq, Repr

/-- Python `str.strip()`: drop whitespace from both ends. -/
def pyStrip (s : String) : String :=
  String.mk (((s.toList.dropWhile Char.isWhitespace).reverse.dropWhile
    Char.isWhitespace).reverse)

/-- First-occurrence-ordered list of the distinct values of `f` over `l`,
mirroring the insertion order of keys into a Python `defaultdict`. -/
def firstKeys (f : Doc → String) (l : List Doc) : List String :=
  l.foldl (fun acc d => if f d ∈ acc then acc else acc ++ [f d]) []

/-- `DuplicateCleanup.find_url_duplicates`: group the documents by `url`,
skipping empty URLs, and keep only groups with more than one member. -/
def find_url_duplicates (documents : List Doc) : List (String × List Doc) :=
  let keys := firstKeys Doc.url (documents.filter (fun d => d.url ≠ ""))
  (keys.map (fun u => (u, documents.filter (fun d => d.url = u)))).filter
    (fun g => 1 < g.2.length)

/-- `DuplicateCleanup.find_content_duplicates`: group documents by the MD5
hash of `text_content`, skipping documents whose content is empty or whose
stripped content has length ≤ 50, and keep groups with more than one member.
MD5 (external hashlib) is modelled as an injective fingerprint, i.e. the
grouping key is the content string itself. -/
def find_content_duplicates (documents : List Doc) : List (String × List Doc) :=
  let eligible := documents.filter
    (fun d => d.text_content ≠ "" ∧ 50 < (pyStrip d.text_content).length)
  let keys := firstKeys Doc.text_content eligible
  (keys.map (fun c => (c, eligible.filter (fun d => d.text_content = c)))).filter
    (fun g => 1 < g.2.length)

/-- Python string comparison `a < b`: lexicographic on code points. -/
def lexLt : List Char → List Char → Bool
  | [], [] => false
  | [], _ :: _ => true
  | _ :: _, [] => false
  | a :: as, b :: bs => if a < b then true else if b < a then false else lexLt as bs

/-- Python `a < b` on strings. -/
def strLtB (x y : String) : Bool :=
  lexLt x.toList y.toList

/-- The comparison `max`/`min` apply under `key=lambda x: x['timestamp']`. -/
def tsLt (a b : Doc) : Bool :=
  strLtB a.timestamp b.timestamp

/-- The comparison `max` applies under `key=lambda x: len(x['text_content'])`. -/
def contentLenLt (a b : Doc) : Bool :=
  decide (a.text_content.length < b.text_content.length)

/-- Python `max(hd :: tl, key=...)` with strict key comparison `lt`: scan
left to right, replacing the current best only on a strictly larger key, so
the first element with the maximal key wins. -/
def pyListMax (lt : Doc → Doc → Bool) (hd : Doc) (tl : List Doc) : Doc :=
  tl.foldl (fun best d => if lt best d then d else best) hd

/-- Python `min(hd :: tl, key=...)`: the first element with the minimal key
wins. -/
def pyListMin (lt : Doc → Doc → Bool) (hd : Doc) (tl : List Doc) : Doc :=
  tl.foldl (fun best d => if lt d best then d else best) hd

/-- The per-group body of `DuplicateCleanup.select_documents_to_keep`: pick
the kept document according to `strategy` and return the ids of all other
members of the group.  An unrecognized strategy matches no branch and
contributes nothing. -/
def keepSelect (strategy : String) (docs : List Doc) : Finset String :=
  match docs with
  | [] => ∅
  | hd :: tl =>
    if strategy = "latest" then
      let keep := pyListMax tsLt hd tl
      (((hd :: tl).filter (fun d => d.id ≠ keep.id)).map Doc.id).toFinset
    else if strategy = "longest_content" then
      let keep := pyListMax contentLenLt hd tl
      (((hd :: tl).filter (fun d => d.id ≠ keep.id)).map Doc.id).toFinset
    else if strategy = "first" then
      let keep := pyListMin tsLt hd tl
      (((hd :: tl).filter (fun d => d.id ≠ keep.id)).map Doc.id).toFinset
    else ∅

/-- `DuplicateCleanup.select_documents_to_keep`: accumulate, over all groups
of size ≥ 2, the ids of the non-kept members into one removal set. -/
def select_documents_to_keep (duplicate_groups : List (String × List Doc))
    (strategy : String) : Finset String :=
  duplicate_groups.foldl
    (fun to_remove g =>
      if g.2.length ≤ 1 then to_remove else to_remove ∪ keepSelect strategy g.2) ∅

/-- `DuplicateCleanup.remove_documents`: returns
(return value, whether the external bulk helper was invoked, updated stats).
Empty removal sets and dry-run mode both return `True` before the bulk call.
In live mode the observed outcome of the single `bulk(...)` call is the
`outcome` parameter: a returned nonempty `failed` list adds `len(failed)` to
`errors`; an exception adds `len(document_ids)` to `errors`. -/
def remove_documents (dry_run : Bool) (document_ids : Finset String)
    (outcome : BulkOutcome) (stats : CleanupStats) :
    Bool × Bool × CleanupStats :=
  if document_ids = ∅ then (true, false, stats)
  else if dry_run then (true, false, stats)
  else
    match outcome with
    | .result _ [] => (true, true, stats)
    | .result _ failed =>
        (false, true, { stats with errors := stats.errors + failed.length })
    | .exn =>
        (false, true, { stats with errors := stats.errors + document_ids.card })

/-- `DuplicateCleanup.cleanup_url_duplicates`: returns
(the int the method returns, updated stats, whether bulk was invoked). -/
def cleanup_url_duplicates (documents : List Doc) (strategy : String)
    (dry_run : Bool) (outcome : BulkOutcome) (stats : CleanupStats) :
    Nat × CleanupStats × Bool :=
  let to_remove := select_documents_to_keep (find_url_duplicates documents) strategy
  match remove_documents dry_run to_remove outcome stats with
  | (true, inv, s) =>
      (to_remove.card, { s with url_duplicates_removed := to_remove.card }, inv)
  | (false, inv, s) => (0, s, inv)

/-- `DuplicateCleanup.cleanup_content_duplicates`. -/
def cleanup_content_duplicates (documents : List Doc) (strategy : String)
    (dry_run : Bool) (outcome : BulkOutcome) (stats : CleanupStats) :
    Nat × CleanupStats × Bool :=
  let to_remove := select_documents_to_keep (find_content_duplicates documents) strategy
  match remove_documents dry_run to_remove outcome stats with
  | (true, inv, s) =>
      (to_remove.card, { s with content_duplicates_removed := to_remove.card }, inv)
  | (false, inv, s) => (0, s, inv)

/-- Inner loop of `DuplicateCleanup.find_similar_content`: walk the documents
after the seed, skipping already-processed ids and too-short contents, and
collect those whose similarity to the seed content reaches the threshold,
marking them processed.  `sim` is the external
`difflib.SequenceMatcher(None, a, b).ratio()` value. -/
def gatherSimilar (sim : String → String → ℚ) (threshold : ℚ) (content1 : String) :
    List Doc → Finset String → List Doc × Finset String
  | [], processed => ([], processed)
  | d :: ds, processed =>
    if d.id ∈ processed then gatherSimilar sim threshold content1 ds processed
    else if d.text_content = "" ∨ (pyStrip d.text_content).length < 100 then
      gatherSimilar sim threshold content1 ds processed
    else if threshold ≤ sim content1 d.text_content then
      let (g, p) := gatherSimilar sim threshold content1 ds (insert d.id processed)
      (d :: g, p)
    else gatherSimilar sim threshold content1 ds processed

/-- Outer loop of `DuplicateCleanup.find_similar_content`: greedy seed-based
grouping; a seed with empty or short content is skipped without being marked
processed; groups of size 1 are dropped but their seed stays processed. -/
def similarGroupsAux (sim : String → String → ℚ) (threshold : ℚ) :
    List Doc → Finset String → List (List Doc)
  | [], _ => []
  | d :: ds, processed =>
    if d.id ∈ processed then similarGroupsAux sim threshold ds processed
    else if d.text_content = "" ∨ (pyStrip d.text_content).length < 100 then
      similarGroupsAux sim threshold ds processed
    else
      let (g, p) := gatherSimilar sim threshold d.text_content ds (insert d.id processed)
      if 1 < (d :: g).length then (d :: g) :: similarGroupsAux sim threshold ds p
      else similarGroupsAux sim threshold ds p

/-- `DuplicateCleanup.find_similar_content`: for more than 1000 documents the
code first draws `random.sample(documents, 1000)`; the draw is modelled by the
explicit oracle `sample`.  Groups are keyed `"group_0"`, `"group_1"`, ... -/
def find_similar_content (sim : String → String → ℚ) (sample : List Doc → List Doc)
    (documents : List Doc) (similarity_threshold : ℚ) : List (String × List Doc) :=
  let docs := if 1000 < documents.length then sample documents else documents
  let groups := similarGroupsAux sim similarity_threshold docs ∅
  groups.enum.map (fun p => ("group_" ++ toString p.1, p.2))

/-- `DuplicateCleanup.cleanup_similar_content` (no per-type stats field). -/
def cleanup_similar_content (documents : List Doc) (similarity_threshold : ℚ)
    (strategy : String) (dry_run : Bool) (sim : String → String → ℚ)
    (sample : List Doc → List Doc) (outcome : BulkOutcome) (stats : CleanupStats) :
    Nat × CleanupStats × Bool :=
  let to_remove := select_documents_to_keep
    (find_similar_content sim sample documents similarity_threshold) strategy
  match remove_documents dry_run to_remove outcome stats with
  | (true, inv, s) => (to_remove.card, s, inv)
  | (false, inv, s) => (0, s, inv)

/-- `DuplicateCleanup.run_cleanup`.  `documents` is what
`get_all_documents` scans from the store; `oUrl`, `oContent`, `oSimilar` are
the outcomes of the (at most three) live bulk calls.  Returns the final stats
together with the number of bulk-helper invocations made. -/
def run_cleanup (documents : List Doc) (cleanup_types : List String)
    (strategy : String) (similarity_threshold : ℚ) (dry_run : Bool)
    (sim : String → String → ℚ) (sample : List Doc → List Doc)
    (oUrl oContent oSimilar : BulkOutcome) : CleanupStats × Nat :=
  let stats0 : CleanupStats := ⟨documents.length, 0, 0, 0, 0⟩
  let r1 := if "url" ∈ cleanup_types then
      cleanup_url_duplicates documents strategy dry_run oUrl stats0
    else (0, stats0, false)
  let r2 := if "content" ∈ cleanup_types then
      cleanup_content_duplicates documents strategy dry_run oContent r1.2.1
    else (0, r1.2.1, false)
  let r3 := if "similar" ∈ cleanup_types then
      cleanup_similar_content documents similarity_threshold strategy dry_run
        sim sample oSimilar r2.2.1
    else (0, r2.2.1, false)
  ({ r3.2.1 with total_removed := r1.1 + r2.1 + r3.1 },
   (cond r1.2.2 1 0) + (cond r2.2.2 1 0) + (cond r3.2.2 1 0))

/-- `BloomFilter` state (smart_deduplicator.py): the five instance fields.
`error_rate` is a Python float, idealized as a rational; `bit_array` holds
the Python list of 0/1 ints. -/
structure BloomFilter where
  capacity : Nat
  error_rate : ℚ
  bit_array_size : Nat
  hash_count : Nat
  bit_array : List Nat
deriving DecidableEq, Repr

/-- Python `int(x)` on a float: truncation toward zero (floor for
nonnegative arguments, ceiling for negative ones). -/
noncomputable def pyInt (x : ℝ) : ℤ :=
  if 0 ≤ x then ⌊x⌋ else ⌈x⌉

/-- The bit-array size computed in `BloomFilter.__init__`:
`int(-capacity * math.log(error_rate) / (math.log(2) ** 2))`, with the
float arithmetic idealized over the reals. -/
noncomputable def bitArraySizeF (capacity : Nat) (error_rate : ℚ) : ℤ :=
  pyInt (-(capacity : ℝ) * Real.log (error_rate : ℝ) / (Real.log 2) ^ 2)

/-- The hash-function count computed in `BloomFilter.__init__`:
`int(self.bit_array_size * math.log(2) / capacity)`, applied to the already
truncated `bit_array_size`. -/
noncomputable def hashCountF (bit_array_size : Nat) (capacity : Nat) : ℤ :=
  pyInt ((bit_array_size : ℝ) * Real.log 2 / (capacity : ℝ))

/-- `BloomFilter.__init__(capacity, error_rate)`.  For the parameter ranges
the engine uses (capacity ≥ 1, 0 < error_rate < 1) both derived values are
nonnegative, so `Int.toNat` is exact. -/
noncomputable def BloomFilter.init (capacity : Nat) (error_rate : ℚ) : BloomFilter :=
  let m := (bitArraySizeF capacity error_rate).toNat
  { capacity := capacity
    error_rate := error_rate
    bit_array_size := m
    hash_count := (hashCountF m capacity).toNat
    bit_array := List.replicate m 0 }

/-- `BloomFilter._hash(item, seed)`: the MD5-derived integer (external
hashlib call, modelled by the parameter `h`) reduced modulo
`bit_array_size`. -/
def BloomFilter.hashIdx (h : String → Nat → Nat) (f : BloomFilter)
    (item : String) (seed : Nat) : Nat :=
  h item seed % f.bit_array_size

/-- `BloomFilter.add(item)`: set the bit at `_hash(item, i)` to 1 for every
seed `i < hash_count`. -/
def BloomFilter.add (h : String → Nat → Nat) (f : BloomFilter)
    (item : String) : BloomFilter :=
  let arr := (List.range f.hash_count).foldl
    (fun a i => a.set (f.hashIdx h item i) 1) f.bit_array
  { f with bit_array := arr }

/-- `BloomFilter.contains(item)`: false as soon as one probed bit is 0,
true when all `hash_count` probed bits are nonzero (vacuously true when
`hash_count = 0`).  A probe past the end of the array (impossible under
`BloomFilter.Wf`) reads as 0 here, where Python would raise. -/
def BloomFilter.contains (h : String → Nat → Nat) (f : BloomFilter)
    (item : String) : Bool :=
  (List.range f.hash_count).all
    (fun i => f.bit_array.getD (f.hashIdx h item i) 0 ≠ 0)

/-- The data record written by `BloomFilter.save_to_file` (JSON round-trips
ints and float reprs exactly, so serialization is modelled as the record
itself). -/
structure BloomSnapshot where
  capacity : Nat
  error_rate : ℚ
  bit_array_size : Nat
  hash_count : Nat
  bit_array : List Nat
deriving DecidableEq, Repr

/-- `BloomFilter.save_to_file`: the dict that is dumped. -/
def BloomFilter.save (f : BloomFilter) : BloomSnapshot :=
  ⟨f.capacity, f.error_rate, f.bit_array_size, f.hash_count, f.bit_array⟩

/-- `BloomFilter.load_from_file`: run `cls(capacity, error_rate)` and then
overwrite `bit_array_size`, `hash_count` and `bit_array` with the stored
values. -/
noncomputable def BloomFilter.load (d : BloomSnapshot) : BloomFilter :=
  let bloom := BloomFilter.init d.capacity d.error_rate
  { bloom with
      bit_array_size := d.bit_array_size
      hash_count := d.hash_count
      bit_array := d.bit_array }

/-- Well-formedness every filter produced by `__init__` (and by
`load_from_file` of a saved filter) satisfies: the list length matches the
recorded size, and a zero-size filter has no hash functions (in the source,
`bit_array_size = 0` forces `hash_count = int(0) = 0`). -/
def BloomFilter.Wf (f : BloomFilter) : Prop :=
  f.bit_array.length = f.bit_array_size ∧ (f.bit_array_size = 0 → f.hash_count = 0)

instance (f : BloomFilter) : Decidable f.Wf := by
  unfold BloomFilter.Wf; infer_instance

/-- Prefix test on character lists. -/
def isPrefixOfB : List Char → List Char → Bool
  | [], _ => true
  | _ :: _, [] => false
  | a :: as, b :: bs => a == b && isPrefixOfB as bs

/-- Contiguous-sublist test on character lists. -/
def isSubListB (sub : List Char) : List Char → Bool
  | [] => isPrefixOfB sub []
  | b :: bs => isPrefixOfB sub (b :: bs) || isSubListB sub bs

/-- Python `sub in s`: contiguous substring test. -/
def strContains (s sub : String) : Bool :=
  isSubListB sub.toList s.toList

/-- `SmartDeduplicator` state: the strategy string, the optional Bloom
filter, the optional Redis client (modelled by its `scraped_urls` set — Redis
failures are not modelled), the local `url_cache` set (as a list), and the
optional OpenSearch client (modelled by the pure membership answer of
`_check_url_in_database`, which the deduplicator never mutates). -/
structure Dedup where
  strategy : String
  bloom : Option BloomFilter
  redis : Option (List String)
  url_cache : List String
  db : Option (String → Bool)

/-- Tier 1 of `SmartDeduplicator.is_url_scraped`: the Bloom filter is
consulted when the strategy mentions "bloom" and a filter exists, and an
absent answer short-circuits the whole check to "not scraped". -/
def bloomSaysAbsent (h : String → Nat → Nat) (st : Dedup) (url : String) : Bool :=
  match st.bloom with
  | some b => strContains st.strategy "bloom" && !(b.contains h url)
  | none => false

/-- Tier 2 of `is_url_scraped`: the Redis `scraped_urls` set. -/
def redisHit (st : Dedup) (url : String) : Bool :=
  match st.redis with
  | some r => strContains st.strategy "redis" && r.contains url
  | none => false

/-- Tier 4 of `is_url_scraped`: `_check_url_in_database`. -/
def dbHit (st : Dedup) (url : String) : Bool :=
  match st.db with
  | some q => strContains st.strategy "db" && q url
  | none => false

/-- `SmartDeduplicator.is_url_scraped`: Bloom absence is authoritative;
otherwise the URL is scraped iff Redis, the local cache, or the database
reports it (tier 3, the local cache, is not gated on the strategy). -/
def is_url_scraped (h : String → Nat → Nat) (st : Dedup) (url : String) : Bool :=
  if bloomSaysAbsent h st url then false
  else redisHit st url || st.url_cache.contains url || dbHit st url

/-- `SmartDeduplicator.mark_url_scraped`: add the URL to the local cache,
the Bloom filter (when present) and the Redis set (when present). -/
def mark_url_scraped (h : String → Nat → Nat) (st : Dedup) (url : String) : Dedup :=
  { st with
      url_cache := st.url_cache.insert url
      bloom := st.bloom.map (fun b => b.add h url)
      redis := st.redis.map (fun r => r.insert url) }

/-- `SmartDeduplicator.filter_new_urls`: walk the input in order; a URL not
currently classified as scraped is appended to the output and immediately
marked scraped before the next URL is examined.  Returns the output list and
the final deduplicator state. -/
def filter_new_urls (h : String → Nat → Nat) (st : Dedup) :
    List String → List String × Dedup
  | [] => ([], st)
  | u :: rest =>
    if is_url_scraped h st u then filter_new_urls h st rest
    else
      let st1 := mark_url_scraped h st u
      let r := filter_new_urls h st1 rest
      (u :: r.1, r.2)

/-- Well-formedness of a deduplicator state: its Bloom filter, if any, is
well-formed. -/
def Dedup.Wf (st : Dedup) : Prop :=
  match st.bloom with
  | some b => b.Wf
  | none => True

/-- Fuel-indexed chunking; `chunksOf` below instantiates the fuel with the
list length. -/
def chunksOfAux (n : Nat) : Nat → List String → List (List String)
  | 0, _ => []
  | _, [] => []
  | fuel + 1, l => l.take n :: chunksOfAux n fuel (l.drop n)

/-- The chunking `opensearchpy.helpers.bulk` applies internally to the action
list (`remove_documents` passes `chunk_size=100`). -/
def chunksOf (n : Nat) (l : List String) : List (List String) :=
  chunksOfAux n l.length l

/-- Semantics of the external `helpers.bulk` call under its default
`raise_on_error=True`: chunks are sent in order; the first chunk the store
fails raises an exception, aborting the remaining chunks.  `chunkFails` is
the store's behaviour.  Returns the outcome observed by `remove_documents`
and the number of chunks actually attempted. -/
def runChunks (chunkFails : List String → Bool) :
    List (List String) → BulkOutcome × Nat
  | [] => (BulkOutcome.result 0 [], 0)
  | c :: rest =>
    if chunkFails c then (BulkOutcome.exn, 1)
    else
      match runChunks chunkFails rest with
      | (BulkOutcome.result s f, k) => (BulkOutcome.result (c.length + s) f, k + 1)
      | (o, k) => (o, k + 1)

/-- The full external bulk call on an id list: chunk by 100, then run. -/
def bulkHelper (chunkFails : List String → Bool) (ids : List String) :
    BulkOutcome × Nat :=
  runChunks chunkFails (chunksOf 100 ids)

/-- Modelled from the spec sentence "bit-array size
m = ceil(-n * ln(p) / (ln 2)^2)"; spec-side definition, kept for comparison
with the source-side `bitArraySizeF`. -/
noncomputable def specBitArraySize (n : Nat) (p : ℚ) : ℤ :=
  Int.ceil (-(n : ℝ) * Real.log (p : ℝ) / (Real.log 2) ^ 2)

/-- Modelled from the spec sentence "hash-function count
k = round(m * ln(2) / n)", using the spec's own m; spec-side definition, kept
for comparison with the source-side `hashCountF`. -/
noncomputable def specHashCount (n : Nat) (p : ℚ) : ℤ :=
  round ((specBitArraySize n p : ℝ) * Real.log 2 / (n : ℝ))

instance (st : Dedup) : Decidable st.Wf := by
  unfold Dedup.Wf
  cases st.bloom <;> infer_instance
/-- Concrete three-member same-URL group used by the C8 witness. -/
def sampleGroupDocs : List Doc :=
  [⟨"docA", "u", "", "", "2021-01-01"⟩,
   ⟨"docB", "u", "", "", "2023-01-01"⟩,
   ⟨"docC", "u", "", "", "2022-01-01"⟩]
/-- Concrete hash family for the C6 witness. -/
def sampleHash : String → Nat → Nat :=
  fun s i => s.length + i
/-- Concrete deduplicator state for the C6 witness: bloom-and-db strategy
with an empty well-formed Bloom filter and no Redis client. -/
def sampleDedup : Dedup :=
  { strategy := "bloom_and_db"
    bloom := some ⟨8, (1 : ℚ)/10, 8, 2, List.replicate 8 0⟩
    redis := none
    url_cache := []
    db := some (fun _ => false) }
/-- A 52-character content string shared by the concrete duplicate pair. -/
def longContent : String :=
  "0123456789012345678901234567890123456789012345678901"
/-- The all-zero similarity oracle used where the similar type is disabled. -/
def simZero : String → String → ℚ :=
  fun _ _ => 0
/-- Concrete duplicate pair: same URL and same content, different ids and
timestamps. -/
def dupDocA : Doc :=
  ⟨"id1", "u", longContent, "", "2021"⟩
/-- Second member of the concrete duplicate pair. -/
def dupDocB : Doc :=
  ⟨"id2", "u", longContent, "", "2022"⟩

/-! ### Bit-array lemmas -/

lemma length_foldl_set (g : Nat → Nat) (idxs : List Nat) (arr : List Nat) :
    (idxs.foldl (fun a i => a.set (g i) 1) arr).length = arr.length := by
  induction idxs generalizing arr with
  | nil => rfl
  | cons i is ih => rw [List.foldl_cons, ih, List.length_set]

lemma getD_set_ne_zero (arr : List Nat) (k j : Nat) (hj : arr.getD j 0 ≠ 0) :
    (arr.set k 1).getD j 0 ≠ 0 := by
  rcases eq_or_ne k j with rfl | hne
  · by_cases hlt : k < arr.length
    · simp [List.getD_eq_getElem?_getD, List.getElem?_set_eq_of_lt _ hlt]
    · rw [List.set_eq_of_length_le (by omega)]
      exact hj
  · rw [List.getD_eq_getElem?_getD, List.getElem?_set_ne (a := 1) hne,
      ← List.getD_eq_getElem?_getD]
    exact hj

lemma getD_foldl_set_mono (g : Nat → Nat) (idxs : List Nat) (arr : List Nat)
    (j : Nat) (hj : arr.getD j 0 ≠ 0) :
    (idxs.foldl (fun a i => a.set (g i) 1) arr).getD j 0 ≠ 0 := by
  induction idxs generalizing arr with
  | nil => exact hj
  | cons i is ih =>
    rw [List.foldl_cons]
    exact ih _ (getD_set_ne_zero _ _ _ hj)

lemma getD_foldl_set_hit (g : Nat → Nat) (idxs : List Nat) (arr : List Nat)
    (j : Nat) (hjlen : j < arr.length) (hmem : j ∈ idxs.map g) :
    (idxs.foldl (fun a i => a.set (g i) 1) arr).getD j 0 ≠ 0 := by
  induction idxs generalizing arr with
  | nil => simp at hmem
  | cons i is ih =>
    rw [List.foldl_cons]
    rcases (by simpa using hmem : j = g i ∨ j ∈ is.map g) with rfl | hmem2
    · apply getD_foldl_set_mono
      simp [List.getD_eq_getElem?_getD, List.getElem?_set_eq_of_lt _ hjlen]
    · exact ih _ (by simpa [List.length_set] using hjlen) hmem2

/-! ### BloomFilter lemmas -/

lemma BloomFilter.init_Wf (n : Nat) (p : ℚ) : (BloomFilter.init n p).Wf := by
  constructor
  · exact List.length_replicate _ _
  · intro h
    show (hashCountF (BloomFilter.init n p).bit_array_size n).toNat = 0
    rw [h]
    unfold hashCountF pyInt
    have hv : ((0 : Nat) : ℝ) * Real.log 2 / (n : ℝ) = 0 := by norm_num
    rw [hv]
    norm_num

lemma BloomFilter.add_bit_array_size (h : String → Nat → Nat) (f : BloomFilter)
    (item : String) : (f.add h item).bit_array_size = f.bit_array_size := rfl

lemma BloomFilter.add_hash_count (h : String → Nat → Nat) (f : BloomFilter)
    (item : String) : (f.add h item).hash_count = f.hash_count := rfl

lemma BloomFilter.add_length (h : String → Nat → Nat) (f : BloomFilter)
    (item : String) : (f.add h item).bit_array.length = f.bit_array.length :=
  length_foldl_set _ _ _

lemma BloomFilter.Wf.add (hf : BloomFilter.Wf f) (h : String → Nat → Nat)
    (item : String) : (f.add h item).Wf := by
  refine ⟨?_, ?_⟩
  · rw [BloomFilter.add_length, BloomFilter.add_bit_array_size]
    exact hf.1
  · rw [BloomFilter.add_bit_array_size, BloomFilter.add_hash_count]
    exact hf.2

lemma BloomFilter.contains_add_self (h : String → Nat → Nat) (f : BloomFilter)
    (item : String) (hf : f.Wf) : (f.add h item).contains h item = true := by
  unfold BloomFilter.contains
  rw [List.all_eq_true]
  intro i hi
  rw [decide_eq_true_eq]
  have hcount : (f.add h item).hash_count = f.hash_count := rfl
  rw [hcount] at hi
  have hpos : 0 < f.bit_array_size := by
    rcases Nat.eq_zero_or_pos f.bit_array_size with hz | hp
    · have := hf.2 hz
      rw [this] at hi
      simp at hi
    · exact hp
  show ((List.range f.hash_count).foldl
      (fun a k => a.set (f.hashIdx h item k) 1) f.bit_array).getD
      ((f.add h item).hashIdx h item i) 0 ≠ 0
  have hidx : (f.add h item).hashIdx h item i = f.hashIdx h item i := rfl
  rw [hidx]
  apply getD_foldl_set_hit
  · calc f.hashIdx h item i < f.bit_array_size := Nat.mod_lt _ hpos
      _ = f.bit_array.length := hf.1.symm
  · exact List.mem_map_of_mem _ hi

lemma BloomFilter.contains_add_mono (h : String → Nat → Nat) (f : BloomFilter)
    (u v : String) (hc : f.contains h u = true) :
    (f.add h v).contains h u = true := by
  unfold BloomFilter.contains at hc ⊢
  rw [List.all_eq_true] at hc ⊢
  intro i hi
  rw [decide_eq_true_eq]
  have hcount : (f.add h v).hash_count = f.hash_count := rfl
  rw [hcount] at hi
  have := hc i hi
  rw [decide_eq_true_eq] at this
  exact getD_foldl_set_mono _ _ _ _ this

lemma BloomFilter.contains_foldl_add (h : String → Nat → Nat)
    (items : List String) (f : BloomFilter) (u : String) (hf : f.Wf)
    (hc : f.contains h u = true) :
    (items.foldl (BloomFilter.add h) f).contains h u = true := by
  induction items generalizing f with
  | nil => exact hc
  | cons v vs ih =>
    rw [List.foldl_cons]
    exact ih _ (hf.add h v) (BloomFilter.contains_add_mono h f u v hc)

/-- C4: for every well-formed BloomFilter (every filter constructed with a
valid capacity and error rate is well-formed), every hash family, and every
string item, `contains item` is true in every state reached after
`add item`, no matter which further items are added afterwards: the filter
has no false negatives. -/
theorem bloom_no_false_negatives (h : String → Nat → Nat) (f : BloomFilter)
    (item : String) (others : List String) (hf : f.Wf) :
    BloomFilter.contains h (others.foldl (BloomFilter.add h) (f.add h item))
      item = true :=
  BloomFilter.contains_foldl_add h others _ item (hf.add h item)
    (BloomFilter.contains_add_self h f item hf)

/-- Witness for C4 at a concrete filter, hash family and input. -/
theorem bloom_no_false_negatives_witness :
    (⟨8, (1 : ℚ)/2, 8, 2, List.replicate 8 0⟩ : BloomFilter).Wf ∧
    BloomFilter.contains (fun s i => s.length + i)
      ((["x", "y"]).foldl (BloomFilter.add (fun s i => s.length + i))
        (BloomFilter.add (fun s i => s.length + i)
          ⟨8, (1 : ℚ)/2, 8, 2, List.replicate 8 0⟩ "ab")) "ab" = true :=
  ⟨by decide, bloom_no_false_negatives (fun s i => s.length + i)
    ⟨8, (1 : ℚ)/2, 8, 2, List.replicate 8 0⟩ "ab" ["x", "y"] (by decide)⟩

/-! ### Sizing analysis for `BloomFilter.init` -/

lemma log_two_sq_lt_log_five_thirds :
    (Real.log 2) ^ 2 < Real.log ((5 : ℝ)/3) := by
  have l2lo := Real.log_two_gt_d9
  have l2hi := Real.log_two_lt_d9
  have hL2pos : (0 : ℝ) < Real.log 2 := by nlinarith
  have hlt : Real.log ((2 : ℝ) ^ 7) < Real.log (((5 : ℝ)/3) ^ 10) :=
    Real.log_lt_log (by positivity) (by norm_num)
  rw [Real.log_pow, Real.log_pow] at hlt
  nlinarith [hlt, mul_pos hL2pos hL2pos]

lemma log_five_thirds_lt_log_two : Real.log ((5 : ℝ)/3) < Real.log 2 :=
  Real.log_lt_log (by norm_num) (by norm_num)

lemma bitArraySizeF_one_threefifths : bitArraySizeF 1 ((3 : ℚ)/5) = 1 := by
  have l2lo := Real.log_two_gt_d9
  have l2hi := Real.log_two_lt_d9
  have hL2pos : (0 : ℝ) < Real.log 2 := by nlinarith
  have hsq : (0 : ℝ) < (Real.log 2) ^ 2 := by positivity
  have hcast : (((3 : ℚ)/5 : ℚ) : ℝ) = (3 : ℝ)/5 := by norm_num
  have hneg : Real.log ((3 : ℝ)/5) = - Real.log ((5 : ℝ)/3) := by
    rw [← Real.log_inv]
    norm_num
  have hlow := log_two_sq_lt_log_five_thirds
  have hhigh := log_five_thirds_lt_log_two
  unfold bitArraySizeF pyInt
  rw [hcast, hneg]
  have hval : -((1 : Nat) : ℝ) * - Real.log ((5 : ℝ)/3) / (Real.log 2) ^ 2 =
      Real.log ((5 : ℝ)/3) / (Real.log 2) ^ 2 := by
    push_cast
    ring
  rw [hval, if_pos (by positivity)]
  rw [Int.floor_eq_iff]
  constructor
  · rw [le_div_iff hsq]
    nlinarith
  · rw [div_lt_iff hsq]
    push_cast
    nlinarith

lemma floor_log_two : ⌊Real.log 2⌋ = 0 := by
  have l2lo := Real.log_two_gt_d9
  have l2hi := Real.log_two_lt_d9
  rw [Int.floor_eq_zero_iff]
  constructor
  · nlinarith
  · nlinarith

lemma init_one_threefifths_hash_count :
    (BloomFilter.init 1 ((3 : ℚ)/5)).hash_count = 0 := by
  have hm := bitArraySizeF_one_threefifths
  show (hashCountF (bitArraySizeF 1 ((3 : ℚ)/5)).toNat 1).toNat = 0
  rw [hm]
  have : hashCountF (Int.toNat 1) 1 = 0 := by
    unfold hashCountF pyInt
    have hval : ((Int.toNat 1 : Nat) : ℝ) * Real.log 2 / ((1 : Nat) : ℝ) =
        Real.log 2 := by
      norm_num
    rw [hval, if_pos (Real.log_nonneg (by norm_num)), floor_log_two]
  rw [this]
  rfl

/-- C10: with an error rate above one half (here the claim's own example
0.6, at capacity 1) construction derives a hash-function count of 0; and for
every filter whose hash-function count is 0, `add` is a no-op and `contains`
answers true for every string, including on a fresh filter with nothing
added. -/
theorem bloom_zero_hash_degenerate :
    (BloomFilter.init 1 ((3 : ℚ)/5)).hash_count = 0 ∧
    ∀ (f : BloomFilter) (h : String → Nat → Nat) (item : String),
      f.hash_count = 0 → f.add h item = f ∧ f.contains h item = true := by
  refine ⟨init_one_threefifths_hash_count, ?_⟩
  intro f h item h0
  obtain ⟨c, e, s, k, arr⟩ := f
  have hk : k = 0 := h0
  subst hk
  exact ⟨rfl, rfl⟩

/-- Witness for C10 at a concrete zero-hash-count filter and item. -/
theorem bloom_zero_hash_degenerate_witness :
    (⟨1000, (3 : ℚ)/5, 5, 0, List.replicate 5 0⟩ : BloomFilter).hash_count = 0 ∧
    BloomFilter.add (fun s i => s.length + i)
      ⟨1000, (3 : ℚ)/5, 5, 0, List.replicate 5 0⟩ "u" =
      ⟨1000, (3 : ℚ)/5, 5, 0, List.replicate 5 0⟩ ∧
    BloomFilter.contains (fun s i => s.length + i)
      ⟨1000, (3 : ℚ)/5, 5, 0, List.replicate 5 0⟩ "u" = true :=
  ⟨rfl,
   (bloom_zero_hash_degenerate.2 ⟨1000, (3 : ℚ)/5, 5, 0, List.replicate 5 0⟩
     (fun s i => s.length + i) "u" rfl).1,
   (bloom_zero_hash_degenerate.2 ⟨1000, (3 : ℚ)/5, 5, 0, List.replicate 5 0⟩
     (fun s i => s.length + i) "u" rfl).2⟩

/-- C9: serializing a BloomFilter and deserializing the snapshot yields a
filter whose capacity, error rate, bit-array size, hash-function count and
bit array all equal the original's. -/
theorem bloom_snapshot_roundtrip (f : BloomFilter) :
    BloomFilter.load (BloomFilter.save f) = f := rfl

/-- C5 counterexample: at capacity 1 and error rate 1/2 the constructor's
`int()` truncation yields bit-array size 1 and hash-function count 0, while
the spec's ceil/round formulas demand 2 and 1. -/
theorem bloom_sizing_counterexample :
    (BloomFilter.init 1 ((1 : ℚ)/2)).bit_array_size = 1 ∧
    specBitArraySize 1 ((1 : ℚ)/2) = 2 ∧
    (BloomFilter.init 1 ((1 : ℚ)/2)).hash_count = 0 ∧
    specHashCount 1 ((1 : ℚ)/2) = 1 := by
  have l2lo := Real.log_two_gt_d9
  have l2hi := Real.log_two_lt_d9
  have hL2pos : (0 : ℝ) < Real.log 2 := by nlinarith
  have hcast : (((1 : ℚ)/2 : ℚ) : ℝ) = (1 : ℝ)/2 := by norm_num
  have hneg : Real.log ((1 : ℝ)/2) = - Real.log 2 := by
    rw [one_div, Real.log_inv]
  have hval : -((1 : Nat) : ℝ) * - Real.log 2 / (Real.log 2) ^ 2 =
      1 / Real.log 2 := by
    push_cast
    field_simp
    ring
  have hm : bitArraySizeF 1 ((1 : ℚ)/2) = 1 := by
    unfold bitArraySizeF pyInt
    rw [hcast, hneg, hval, if_pos (by positivity)]
    rw [Int.floor_eq_iff]
    constructor
    · rw [le_div_iff hL2pos]
      push_cast
      nlinarith
    · rw [div_lt_iff hL2pos]
      push_cast
      nlinarith
  have hspec : specBitArraySize 1 ((1 : ℚ)/2) = 2 := by
    unfold specBitArraySize
    rw [hcast, hneg, hval]
    rw [Int.ceil_eq_iff]
    constructor
    · push_cast
      rw [lt_div_iff hL2pos]
      nlinarith
    · rw [div_le_iff hL2pos]
      push_cast
      nlinarith
  refine ⟨?_, hspec, ?_, ?_⟩
  · show (bitArraySizeF 1 ((1 : ℚ)/2)).toNat = 1
    rw [hm]
    rfl
  · show (hashCountF (bitArraySizeF 1 ((1 : ℚ)/2)).toNat 1).toNat = 0
    rw [hm]
    have : hashCountF (Int.toNat 1) 1 = 0 := by
      unfold hashCountF pyInt
      have hv : ((Int.toNat 1 : Nat) : ℝ) * Real.log 2 / ((1 : Nat) : ℝ) =
          Real.log 2 := by
        norm_num
      rw [hv, if_pos (Real.log_nonneg (by norm_num)), floor_log_two]
    rw [this]
    rfl
  · unfold specHashCount
    rw [hspec]
    have hv : ((2 : ℤ) : ℝ) * Real.log 2 / ((1 : Nat) : ℝ) = 2 * Real.log 2 := by
      norm_num
    rw [hv, round_eq]
    have : ⌊2 * Real.log 2 + 1 / 2⌋ = 1 := by
      rw [Int.floor_eq_iff]
      constructor
      · push_cast
        nlinarith
      · push_cast
        nlinarith
    rw [this]

/-- C5 amended: the constructor truncates toward zero (Python `int()`),
giving `m = int(-n ln p / (ln 2)^2)` and `k = int(m ln 2 / n)` with the
already-truncated `m` — not ceil and round — and neither derived value is
changed by `add` afterwards. -/
theorem bloom_sizing_amended (n : Nat) (p : ℚ) (h : String → Nat → Nat)
    (f : BloomFilter) (item : String) :
    (BloomFilter.init n p).bit_array_size = (bitArraySizeF n p).toNat ∧
    (BloomFilter.init n p).hash_count =
      (hashCountF (bitArraySizeF n p).toNat n).toNat ∧
    (f.add h item).bit_array_size = f.bit_array_size ∧
    (f.add h item).hash_count = f.hash_count :=
  ⟨rfl, rfl, rfl, rfl⟩

/-! ### Lexicographic-comparison lemmas -/

lemma lexLt_trans : ∀ {a b c : List Char}, lexLt a b = true → lexLt b c = true →
    lexLt a c = true := by
  intro a
  induction a with
  | nil =>
    intro b c hab hbc
    cases b with
    | nil => simp [lexLt] at hab
    | cons y ys =>
      cases c with
      | nil => simp [lexLt] at hbc
      | cons z zs => simp [lexLt]
  | cons x xs ih =>
    intro b c hab hbc
    cases b with
    | nil => simp [lexLt] at hab
    | cons y ys =>
      cases c with
      | nil => simp [lexLt] at hbc
      | cons z zs =>
        simp only [lexLt] at hab hbc ⊢
        by_cases hxy : x < y
        · by_cases hyz : y < z
          · rw [if_pos (lt_trans hxy hyz)]
          · rw [if_neg hyz] at hbc
            by_cases hzy : z < y
            · rw [if_pos hzy] at hbc
              exact absurd hbc (by simp)
            · have hyez : y = z := le_antisymm (not_lt.mp hzy) (not_lt.mp hyz)
              rw [if_pos (by rw [← hyez]; exact hxy)]
        · rw [if_neg hxy] at hab
          by_cases hyx : y < x
          · rw [if_pos hyx] at hab
            exact absurd hab (by simp)
          · rw [if_neg hyx] at hab
            have hxey : x = y := le_antisymm (not_lt.mp hyx) (not_lt.mp hxy)
            by_cases hyz : y < z
            · rw [if_pos (by rw [hxey]; exact hyz)]
            · rw [if_neg hyz] at hbc
              by_cases hzy : z < y
              · rw [if_pos hzy] at hbc
                exact absurd hbc (by simp)
              · rw [if_neg hzy] at hbc
                have hyez : y = z := le_antisymm (not_lt.mp hzy) (not_lt.mp hyz)
                rw [if_neg (by rw [hxey, hyez]; exact lt_irrefl z),
                  if_neg (by rw [hxey, hyez]; exact lt_irrefl z)]
                exact ih hab hbc

lemma lexLt_antisymm_eq : ∀ {a b : List Char}, lexLt a b = false →
    lexLt b a = false → a = b := by
  intro a
  induction a with
  | nil =>
    intro b hab _
    cases b with
    | nil => rfl
    | cons y ys => simp [lexLt] at hab
  | cons x xs ih =>
    intro b hab hba
    cases b with
    | nil => simp [lexLt] at hba
    | cons y ys =>
      simp only [lexLt] at hab hba
      by_cases hxy : x < y
      · rw [if_pos hxy] at hab
        exact absurd hab (by simp)
      · by_cases hyx : y < x
        · rw [if_pos hyx] at hba
          exact absurd hba (by simp)
        · rw [if_neg hxy, if_neg hyx] at hab
          rw [if_neg hyx, if_neg hxy] at hba
          have h1 : x = y := le_antisymm (not_lt.mp hyx) (not_lt.mp hxy)
          rw [h1, ih hab hba]

lemma lexLt_irrefl : ∀ a : List Char, lexLt a a = false := by
  intro a
  induction a with
  | nil => rfl
  | cons x xs ih =>
    simp only [lexLt]
    rw [if_neg (lt_irrefl x), if_neg (lt_irrefl x)]
    exact ih

lemma tsLt_trans (a b c : Doc) : tsLt a b = true → tsLt b c = true →
    tsLt a c = true :=
  fun h1 h2 => lexLt_trans h1 h2

lemma tsLt_subst (a b c : Doc) : tsLt a b = false → tsLt b a = false →
    tsLt c a = tsLt c b := by
  intro h1 h2
  have h3 : a.timestamp.toList = b.timestamp.toList := lexLt_antisymm_eq h1 h2
  show lexLt c.timestamp.toList a.timestamp.toList =
    lexLt c.timestamp.toList b.timestamp.toList
  rw [h3]

/-! ### First-maximum characterization of `pyListMax` -/

lemma pyListMax_split (lt : Doc → Doc → Bool)
    (Htrans : ∀ a b c, lt a b = true → lt b c = true → lt a c = true)
    (Hsubst : ∀ a b c, lt a b = false → lt b a = false → lt c a = lt c b)
    (hd : Doc) (tl : List Doc) :
    ∃ l1 l2, hd :: tl = l1 ++ pyListMax lt hd tl :: l2 ∧
      (∀ x ∈ l1, lt x (pyListMax lt hd tl) = true) ∧
      (∀ x ∈ l2, lt (pyListMax lt hd tl) x = false) := by
  induction tl generalizing hd with
  | nil => exact ⟨[], [], by simp [pyListMax], by simp, by simp⟩
  | cons d ds ih =>
    cases hcmp : lt hd d with
    | true =>
      have hstep2 : pyListMax lt hd (d :: ds) = pyListMax lt d ds := by
        show List.foldl _ (if lt hd d then d else hd) ds = _
        rw [hcmp]
        rfl
      obtain ⟨l1, l2, heq, hl1, hl2⟩ := ih d
      rw [hstep2]
      refine ⟨hd :: l1, l2, ?_, ?_, hl2⟩
      · rw [List.cons_append, ← heq]
      · intro x hx
        rcases List.mem_cons.mp hx with rfl | hx2
        · cases l1 with
          | nil =>
            rw [List.nil_append] at heq
            injection heq with h1 _
            rw [← h1]
            exact hcmp
          | cons a l1t =>
            rw [List.cons_append] at heq
            injection heq with h1 _
            have had := hl1 a (List.mem_cons_self a l1t)
            rw [← h1] at had
            exact Htrans x d _ hcmp had
        · exact hl1 x hx2
    | false =>
      have hstep2 : pyListMax lt hd (d :: ds) = pyListMax lt hd ds := by
        show List.foldl _ (if lt hd d then d else hd) ds = _
        rw [hcmp]
        rfl
      obtain ⟨l1, l2, heq, hl1, hl2⟩ := ih hd
      rw [hstep2]
      cases l1 with
      | nil =>
        rw [List.nil_append] at heq
        injection heq with h1 h2
        refine ⟨[], d :: ds, ?_, by simp, ?_⟩
        · rw [List.nil_append, ← h1]
        · intro x hx
          rcases List.mem_cons.mp hx with rfl | hx2
          · rw [← h1]
            exact hcmp
          · exact hl2 x (h2 ▸ hx2)
      | cons a l1t =>
        rw [List.cons_append] at heq
        injection heq with h1 h2
        have hhd : lt hd (pyListMax lt hd ds) = true := by
          have h5 := hl1 a (List.mem_cons_self a l1t)
          rw [← h1] at h5
          exact h5
        refine ⟨hd :: d :: l1t, l2, ?_, ?_, hl2⟩
        · simp only [List.cons_append]
          rw [← h2]
        · intro x hx
          rcases List.mem_cons.mp hx with rfl | hx2
          · exact hhd
          · rcases List.mem_cons.mp hx2 with rfl | hx3
            · cases hdm : lt x (pyListMax lt hd ds) with
              | true => rfl
              | false =>
                cases hmd : lt (pyListMax lt hd ds) x with
                | true =>
                  have h4 := Htrans hd _ x hhd hmd
                  rw [hcmp] at h4
                  exact absurd h4 (by simp)
                | false =>
                  have h3 := Hsubst x _ hd hdm hmd
                  rw [hcmp, hhd] at h3
                  exact absurd h3 (by simp)
            · exact hl1 x (List.mem_cons_of_mem a hx3)

/-! ### Selection lemmas -/

lemma filter_ne_map_toFinset (l : List Doc) (a : String) :
    ((l.filter (fun d => d.id ≠ a)).map Doc.id).toFinset =
      ((l.map Doc.id).toFinset).erase a := by
  ext x
  simp only [List.mem_toFinset, List.mem_map, List.mem_filter, Finset.mem_erase,
    decide_eq_true_eq]
  constructor
  · rintro ⟨d, ⟨hdl, hne⟩, rfl⟩
    exact ⟨hne, d, hdl, rfl⟩
  · rintro ⟨hne, d, hdl, rfl⟩
    exact ⟨d, ⟨hdl, hne⟩, rfl⟩

lemma keepSelect_latest (hd : Doc) (tl : List Doc) :
    keepSelect "latest" (hd :: tl) =
      (((hd :: tl).map Doc.id).toFinset).erase (pyListMax tsLt hd tl).id := by
  show (((hd :: tl).filter
      (fun d => d.id ≠ (pyListMax tsLt hd tl).id)).map Doc.id).toFinset = _
  exact filter_ne_map_toFinset _ _

lemma select_single (gkey : String) (docs : List Doc) (strategy : String)
    (h2 : 1 < docs.length) :
    select_documents_to_keep [(gkey, docs)] strategy = keepSelect strategy docs := by
  unfold select_documents_to_keep
  rw [List.foldl_cons, List.foldl_nil]
  have hc : ¬ ((gkey, docs).2.length ≤ 1) := by
    change ¬ (docs.length ≤ 1)
    omega
  rw [if_neg hc, Finset.empty_union]

/-- C8: with strategy "latest" on a single duplicate group of size ≥ 2 with
distinct ids, the kept member is the first member whose timestamp (compared
as Python compares strings) is maximal — everything before it is strictly
smaller, nothing after it is strictly larger — and the removal set is exactly
the ids of all other members, so exactly one member is kept. -/
theorem latest_strategy_keeps_max_timestamp (gkey : String) (docs : List Doc)
    (h2 : 2 ≤ docs.length) (hnd : (docs.map Doc.id).Nodup) :
    ∃ keep l1 l2,
      docs = l1 ++ keep :: l2 ∧
      (∀ d ∈ docs, tsLt keep d = false) ∧
      (∀ d ∈ l1, tsLt d keep = true) ∧
      (∀ d ∈ l2, tsLt keep d = false) ∧
      select_documents_to_keep [(gkey, docs)] "latest" =
        ((docs.map Doc.id).toFinset).erase keep.id ∧
      keep.id ∉ select_documents_to_keep [(gkey, docs)] "latest" ∧
      (select_documents_to_keep [(gkey, docs)] "latest").card = docs.length - 1 := by
  cases docs with
  | nil => simp at h2
  | cons hd tl =>
    obtain ⟨l1, l2, heq, hl1, hl2⟩ := pyListMax_split tsLt tsLt_trans tsLt_subst hd tl
    have hsel : select_documents_to_keep [(gkey, hd :: tl)] "latest" =
        (((hd :: tl).map Doc.id).toFinset).erase (pyListMax tsLt hd tl).id := by
      rw [select_single _ _ _ (by simpa using h2), keepSelect_latest]
    have hirr : ∀ d : Doc, tsLt d d = false := fun d => lexLt_irrefl _
    have hmax : ∀ d ∈ hd :: tl, tsLt (pyListMax tsLt hd tl) d = false := by
      intro d hdmem
      rw [heq] at hdmem
      rcases List.mem_append.mp hdmem with hmem1 | hmem2
      · cases hv : tsLt (pyListMax tsLt hd tl) d with
        | true =>
          have h4 := tsLt_trans _ _ _ hv (hl1 d hmem1)
          rw [hirr] at h4
          exact absurd h4 (by simp)
        | false => rfl
      · rcases List.mem_cons.mp hmem2 with rfl | hmem3
        · exact hirr _
        · exact hl2 d hmem3
    have hkmem : pyListMax tsLt hd tl ∈ hd :: tl := by
      rw [heq]
      exact List.mem_append.mpr (Or.inr (List.mem_cons_self _ _))
    have hkid : (pyListMax tsLt hd tl).id ∈ ((hd :: tl).map Doc.id).toFinset := by
      rw [List.mem_toFinset]
      exact List.mem_map_of_mem Doc.id hkmem
    refine ⟨pyListMax tsLt hd tl, l1, l2, heq, hmax, hl1, hl2, hsel, ?_, ?_⟩
    · rw [hsel]
      exact Finset.not_mem_erase _ _
    · rw [hsel, Finset.card_erase_of_mem hkid, List.toFinset_card_of_nodup hnd,
        List.length_map]

/-- Witness for C8 on a group of three same-URL documents: the
maximum-timestamp member "docB" is kept and exactly the other two ids are
removed. -/
theorem latest_strategy_keeps_max_timestamp_witness :
    2 ≤ sampleGroupDocs.length ∧
    (sampleGroupDocs.map Doc.id).Nodup ∧
    select_documents_to_keep [("u", sampleGroupDocs)] "latest" =
      {"docA", "docC"} ∧
    (∃ keep l1 l2,
      sampleGroupDocs = l1 ++ keep :: l2 ∧
      (∀ d ∈ sampleGroupDocs, tsLt keep d = false) ∧
      (∀ d ∈ l1, tsLt d keep = true) ∧
      (∀ d ∈ l2, tsLt keep d = false) ∧
      select_documents_to_keep [("u", sampleGroupDocs)] "latest" =
        ((sampleGroupDocs.map Doc.id).toFinset).erase keep.id ∧
      keep.id ∉ select_documents_to_keep [("u", sampleGroupDocs)] "latest" ∧
      (select_documents_to_keep [("u", sampleGroupDocs)] "latest").card =
        sampleGroupDocs.length - 1) :=
  ⟨by decide, by decide, by decide,
   latest_strategy_keeps_max_timestamp "u" sampleGroupDocs (by decide) (by decide)⟩

/-! ### Deduplicator lemmas -/

lemma filter_new_urls_cons (h : String → Nat → Nat) (st : Dedup) (w : String)
    (ws : List String) :
    filter_new_urls h st (w :: ws) =
      if is_url_scraped h st w then filter_new_urls h st ws
      else
        ((w :: (filter_new_urls h (mark_url_scraped h st w) ws).1),
          (filter_new_urls h (mark_url_scraped h st w) ws).2) := rfl

lemma contains_insert_mono (l : List String) (u v : String)
    (hc : l.contains u = true) : (l.insert v).contains u = true := by
  have hm : u ∈ l := by simpa using hc
  simpa using List.mem_insert_iff.mpr (Or.inr hm)

lemma Dedup.Wf.mark (hwf : Dedup.Wf st) (h : String → Nat → Nat) (v : String) :
    (mark_url_scraped h st v).Wf := by
  unfold Dedup.Wf mark_url_scraped at *
  cases hb : st.bloom with
  | none => simp [hb]
  | some b =>
    rw [hb] at hwf
    simp only [hb, Option.map_some']
    exact BloomFilter.Wf.add hwf h v

lemma bloomSaysAbsent_mark_self (h : String → Nat → Nat) (st : Dedup)
    (u : String) (hwf : st.Wf) :
    bloomSaysAbsent h (mark_url_scraped h st u) u = false := by
  unfold bloomSaysAbsent mark_url_scraped
  cases hb : st.bloom with
  | none => simp [hb]
  | some b =>
    have hbwf : b.Wf := by
      unfold Dedup.Wf at hwf
      rw [hb] at hwf
      exact hwf
    simp [hb, BloomFilter.contains_add_self h b u hbwf]

lemma bloomSaysAbsent_mark_mono (h : String → Nat → Nat) (st : Dedup)
    (u v : String) (hwf : st.Wf) (habs : bloomSaysAbsent h st u = false) :
    bloomSaysAbsent h (mark_url_scraped h st v) u = false := by
  unfold bloomSaysAbsent mark_url_scraped at *
  cases hb : st.bloom with
  | none => simp [hb]
  | some b =>
    have hbwf : b.Wf := by
      unfold Dedup.Wf at hwf
      rw [hb] at hwf
      exact hwf
    rw [hb] at habs
    simp only [Option.map_some']
    rcases Bool.and_eq_false_iff.mp habs with hstrat | hcont
    · simp [hstrat]
    · have hc : b.contains h u = true := by
        cases hv : b.contains h u with
        | true => rfl
        | false => rw [hv] at hcont; simp at hcont
      simp [BloomFilter.contains_add_mono h b u v hc]

lemma redisHit_mark_mono (h : String → Nat → Nat) (st : Dedup) (u v : String)
    (hr : redisHit st u = true) : redisHit (mark_url_scraped h st v) u = true := by
  unfold redisHit mark_url_scraped at *
  cases hb : st.redis with
  | none =>
    rw [hb] at hr
    simp at hr
  | some r =>
    rw [hb] at hr
    simp only [Option.map_some']
    rw [Bool.and_eq_true] at hr
    obtain ⟨hstrat, hcont⟩ := hr
    have hm : u ∈ r := by simpa using hcont
    simp [hstrat, List.mem_insert_iff, hm]

lemma dbHit_mark (h : String → Nat → Nat) (st : Dedup) (u v : String) :
    dbHit (mark_url_scraped h st v) u = dbHit st u := rfl

lemma scraped_after_mark_self (h : String → Nat → Nat) (st : Dedup) (u : String)
    (hwf : st.Wf) : is_url_scraped h (mark_url_scraped h st u) u = true := by
  unfold is_url_scraped
  rw [bloomSaysAbsent_mark_self h st u hwf]
  have hmem : u ∈ (mark_url_scraped h st u).url_cache := by
    show u ∈ st.url_cache.insert u
    exact List.mem_insert_iff.mpr (Or.inl rfl)
  simp [hmem]

lemma scraped_mark_mono (h : String → Nat → Nat) (st : Dedup) (u v : String)
    (hwf : st.Wf) (hs : is_url_scraped h st u = true) :
    is_url_scraped h (mark_url_scraped h st v) u = true := by
  unfold is_url_scraped at hs ⊢
  cases habs : bloomSaysAbsent h st u with
  | true =>
    rw [habs] at hs
    simp at hs
  | false =>
    rw [habs] at hs
    simp only [if_neg (by simp : ¬ (false = true))] at hs
    rw [bloomSaysAbsent_mark_mono h st u v hwf habs]
    simp only [if_neg (by simp : ¬ (false = true))]
    rw [Bool.or_eq_true] at hs
    rcases hs with hs1 | hdb
    · rw [Bool.or_eq_true] at hs1
      rcases hs1 with hr | hc
      · simp [redisHit_mark_mono h st u v hr]
      · have hm : u ∈ (mark_url_scraped h st v).url_cache := by
          show u ∈ st.url_cache.insert v
          exact List.mem_insert_iff.mpr (Or.inr (by simpa using hc))
        simp [hm]
    · rw [dbHit_mark]
      simp [hdb]

lemma not_mem_filter_of_scraped (h : String → Nat → Nat) (u : String) :
    ∀ (urls : List String) (st : Dedup), st.Wf → is_url_scraped h st u = true →
      u ∉ (filter_new_urls h st urls).1 := by
  intro urls
  induction urls with
  | nil =>
    intro st _ _ hmem
    simp [filter_new_urls] at hmem
  | cons w ws ih =>
    intro st hwf hs hmem
    rw [filter_new_urls_cons] at hmem
    cases hw : is_url_scraped h st w with
    | true =>
      rw [hw] at hmem
      simp only [if_pos rfl] at hmem
      exact ih st hwf hs hmem
    | false =>
      rw [hw] at hmem
      simp only [if_neg (by simp : ¬ (false = true))] at hmem
      rcases List.mem_cons.mp hmem with rfl | hmem2
      · rw [hw] at hs
        simp at hs
      · exact ih (mark_url_scraped h st w) (hwf.mark h w)
          (scraped_mark_mono h st u w hwf hs) hmem2

/-- C6: `filter_new_urls` returns a subsequence of its input consisting only
of URLs that were not classified as scraped in the starting state, and —
because each emitted URL is marked synchronously before the next URL is
checked — the output never contains the same URL twice, for every starting
state with a well-formed Bloom filter. -/
theorem filter_new_urls_spec (h : String → Nat → Nat) (st : Dedup)
    (urls : List String) (hwf : st.Wf) :
    List.Sublist (filter_new_urls h st urls).1 urls ∧
    (filter_new_urls h st urls).1.Nodup ∧
    ∀ u ∈ (filter_new_urls h st urls).1, is_url_scraped h st u = false := by
  induction urls generalizing st with
  | nil =>
    refine ⟨List.Sublist.refl _, ?_, ?_⟩ <;> simp [filter_new_urls]
  | cons w ws ih =>
    rw [filter_new_urls_cons]
    cases hw : is_url_scraped h st w with
    | true =>
      simp only [if_pos rfl]
      obtain ⟨hsub, hnd, hnew⟩ := ih st hwf
      exact ⟨hsub.cons w, hnd, hnew⟩
    | false =>
      simp only [if_neg (by simp : ¬ (false = true))]
      obtain ⟨hsub, hnd, hnew⟩ := ih (mark_url_scraped h st w) (hwf.mark h w)
      refine ⟨hsub.cons₂ w, ?_, ?_⟩
      · refine List.nodup_cons.mpr ⟨?_, hnd⟩
        exact not_mem_filter_of_scraped h w ws (mark_url_scraped h st w)
          (hwf.mark h w) (scraped_after_mark_self h st w hwf)
      · intro u hu
        rcases List.mem_cons.mp hu with rfl | hu2
        · exact hw
        · cases hsu : is_url_scraped h st u with
          | false => rfl
          | true =>
            have hmono := scraped_mark_mono h st u w hwf hsu
            rw [hnew u hu2] at hmono
            simp at hmono

/-- Witness for C6: on input ["a", "aa", "a"] the filter returns
["a", "aa"] — the duplicate "a" is suppressed — and the theorem's
conclusions hold at this concrete input. -/
theorem filter_new_urls_spec_witness :
    sampleDedup.Wf ∧
    (filter_new_urls sampleHash sampleDedup ["a", "aa", "a"]).1 = ["a", "aa"] ∧
    (List.Sublist (filter_new_urls sampleHash sampleDedup ["a", "aa", "a"]).1
        ["a", "aa", "a"] ∧
      (filter_new_urls sampleHash sampleDedup ["a", "aa", "a"]).1.Nodup ∧
      ∀ u ∈ (filter_new_urls sampleHash sampleDedup ["a", "aa", "a"]).1,
        is_url_scraped sampleHash sampleDedup u = false) :=
  ⟨by decide, by decide,
   filter_new_urls_spec sampleHash sampleDedup ["a", "aa", "a"] (by decide)⟩

/-! ### Cleanup-run lemmas -/

lemma remove_documents_dry (ids : Finset String) (o : BulkOutcome)
    (s : CleanupStats) : remove_documents true ids o s = (true, false, s) := by
  by_cases h : ids = ∅ <;> simp [remove_documents, h]

lemma remove_documents_result_nil (dry : Bool) (ids : Finset String) (n : Nat)
    (s : CleanupStats) :
    remove_documents dry ids (BulkOutcome.result n []) s =
      (true, !(decide (ids = ∅) || dry), s) := by
  by_cases h : ids = ∅
  · simp [remove_documents, h]
  · cases dry <;> simp [remove_documents, h]

lemma remove_documents_empty (dry : Bool) (o : BulkOutcome) (s : CleanupStats) :
    remove_documents dry (∅ : Finset String) o s = (true, false, s) := by
  simp [remove_documents]

lemma remove_documents_exn (ids : Finset String) (s : CleanupStats)
    (h : ids ≠ ∅) :
    remove_documents false ids BulkOutcome.exn s =
      (false, true, { s with errors := s.errors + ids.card }) := by
  simp [remove_documents, h]

lemma cleanup_url_dry (documents : List Doc) (strategy : String)
    (o : BulkOutcome) (s : CleanupStats) :
    cleanup_url_duplicates documents strategy true o s =
      ((select_documents_to_keep (find_url_duplicates documents) strategy).card,
       { s with url_duplicates_removed :=
          (select_documents_to_keep (find_url_duplicates documents) strategy).card },
       false) := by
  unfold cleanup_url_duplicates
  simp only [remove_documents_dry]

lemma cleanup_url_ok (documents : List Doc) (strategy : String) (dry : Bool)
    (n : Nat) (s : CleanupStats) :
    cleanup_url_duplicates documents strategy dry (BulkOutcome.result n []) s =
      ((select_documents_to_keep (find_url_duplicates documents) strategy).card,
       { s with url_duplicates_removed :=
          (select_documents_to_keep (find_url_duplicates documents) strategy).card },
       !(decide (select_documents_to_keep (find_url_duplicates documents) strategy
          = ∅) || dry)) := by
  unfold cleanup_url_duplicates
  simp only [remove_documents_result_nil]

lemma cleanup_url_exn (documents : List Doc) (strategy : String)
    (s : CleanupStats)
    (h : select_documents_to_keep (find_url_duplicates documents) strategy ≠ ∅) :
    cleanup_url_duplicates documents strategy false BulkOutcome.exn s =
      (0,
       { s with errors := s.errors +
          (select_documents_to_keep (find_url_duplicates documents) strategy).card },
       true) := by
  unfold cleanup_url_duplicates
  simp only [remove_documents_exn _ _ h]

lemma cleanup_content_dry (documents : List Doc) (strategy : String)
    (o : BulkOutcome) (s : CleanupStats) :
    cleanup_content_duplicates documents strategy true o s =
      ((select_documents_to_keep (find_content_duplicates documents) strategy).card,
       { s with content_duplicates_removed :=
          (select_documents_to_keep (find_content_duplicates documents) strategy).card },
       false) := by
  unfold cleanup_content_duplicates
  simp only [remove_documents_dry]

lemma cleanup_content_ok (documents : List Doc) (strategy : String) (dry : Bool)
    (n : Nat) (s : CleanupStats) :
    cleanup_content_duplicates documents strategy dry (BulkOutcome.result n []) s =
      ((select_documents_to_keep (find_content_duplicates documents) strategy).card,
       { s with content_duplicates_removed :=
          (select_documents_to_keep (find_content_duplicates documents) strategy).card },
       !(decide (select_documents_to_keep (find_content_duplicates documents) strategy
          = ∅) || dry)) := by
  unfold cleanup_content_duplicates
  simp only [remove_documents_result_nil]

lemma cleanup_similar_dry (documents : List Doc) (thr : ℚ) (strategy : String)
    (sim : String → String → ℚ) (sample : List Doc → List Doc)
    (o : BulkOutcome) (s : CleanupStats) :
    cleanup_similar_content documents thr strategy true sim sample o s =
      ((select_documents_to_keep
          (find_similar_content sim sample documents thr) strategy).card,
       s, false) := by
  unfold cleanup_similar_content
  simp only [remove_documents_dry]

lemma cleanup_similar_ok (documents : List Doc) (thr : ℚ) (strategy : String)
    (dry : Bool) (sim : String → String → ℚ) (sample : List Doc → List Doc)
    (n : Nat) (s : CleanupStats) :
    cleanup_similar_content documents thr strategy dry sim sample
        (BulkOutcome.result n []) s =
      ((select_documents_to_keep
          (find_similar_content sim sample documents thr) strategy).card,
       s,
       !(decide (select_documents_to_keep
          (find_similar_content sim sample documents thr) strategy = ∅) || dry)) := by
  unfold cleanup_similar_content
  simp only [remove_documents_result_nil]

/-- C1: a dry run of `run_cleanup` never invokes the bulk-delete helper, for
any enabled cleanup types and any store behaviour, and every counter it
reports (processed, per-type removed, totalRemoved, errors) is exactly what a
live run reports on the same unmodified document list when that live run's
deletes all succeed (the similarity and sampling oracles of the external
libraries being held fixed across the two runs). -/
theorem dry_run_matches_live (documents : List Doc) (cleanup_types : List String)
    (strategy : String) (thr : ℚ) (sim : String → String → ℚ)
    (sample : List Doc → List Doc) (oUrl oContent oSimilar : BulkOutcome) :
    (run_cleanup documents cleanup_types strategy thr true sim sample
        oUrl oContent oSimilar).2 = 0 ∧
    (run_cleanup documents cleanup_types strategy thr true sim sample
        oUrl oContent oSimilar).1 =
      (run_cleanup documents cleanup_types strategy thr false sim sample
        (BulkOutcome.result 0 []) (BulkOutcome.result 0 [])
        (BulkOutcome.result 0 [])).1 := by
  unfold run_cleanup
  by_cases hu : "url" ∈ cleanup_types <;>
    by_cases hc : "content" ∈ cleanup_types <;>
      by_cases hs : "similar" ∈ cleanup_types <;>
        simp [hu, hc, hs, cleanup_url_dry, cleanup_url_ok, cleanup_content_dry,
          cleanup_content_ok, cleanup_similar_dry, cleanup_similar_ok]

/-- C2 amended: the per-type removal sets are computed independently from the
same unmodified document snapshot, so they need not be disjoint;
`totalRemoved` is the plain sum of the per-type removal-set sizes, counting a
document once per type that selects it. -/
theorem total_removed_is_per_type_sum (documents : List Doc)
    (cleanup_types : List String) (strategy : String) (thr : ℚ)
    (sim : String → String → ℚ) (sample : List Doc → List Doc)
    (oUrl oContent oSimilar : BulkOutcome) :
    (run_cleanup documents cleanup_types strategy thr true sim sample
        oUrl oContent oSimilar).1.total_removed =
      (if "url" ∈ cleanup_types then
        (select_documents_to_keep (find_url_duplicates documents) strategy).card
       else 0) +
      (if "content" ∈ cleanup_types then
        (select_documents_to_keep (find_content_duplicates documents) strategy).card
       else 0) +
      (if "similar" ∈ cleanup_types then
        (select_documents_to_keep
          (find_similar_content sim sample documents thr) strategy).card
       else 0) := by
  unfold run_cleanup
  by_cases hu : "url" ∈ cleanup_types <;>
    by_cases hc : "content" ∈ cleanup_types <;>
      by_cases hs : "similar" ∈ cleanup_types <;>
        simp [hu, hc, hs, cleanup_url_dry, cleanup_content_dry, cleanup_similar_dry]

set_option maxRecDepth 100000 in
/-- C2 counterexample: on two documents sharing both URL and content, the id
removed by the url type is selected again by the content type — the per-type
removal sets are not disjoint — and `totalRemoved` double-counts it: the run
reports 2 while only 1 distinct document is selected for removal. -/
theorem per_type_sets_not_disjoint :
    "id1" ∈ select_documents_to_keep
      (find_url_duplicates [dupDocA, dupDocB]) "latest" ∧
    "id1" ∈ select_documents_to_keep
      (find_content_duplicates [dupDocA, dupDocB]) "latest" ∧
    (run_cleanup [dupDocA, dupDocB] ["url", "content"] "latest" 0 true simZero
        id (BulkOutcome.result 0 []) (BulkOutcome.result 0 [])
        (BulkOutcome.result 0 [])).1.total_removed = 2 ∧
    (select_documents_to_keep (find_url_duplicates [dupDocA, dupDocB]) "latest" ∪
      select_documents_to_keep
        (find_content_duplicates [dupDocA, dupDocB]) "latest").card = 1 := by
  refine ⟨by decide, by decide, by decide, by decide⟩

set_option maxRecDepth 100000 in
/-- C3 counterexample: a removal set of 150 ids is sent as two chunks of 100
and 50; when the store fails the first chunk, the bulk helper raises without
attempting the second chunk, and `remove_documents` increments `errors` by
150 — the whole removal set — not by the 100 ids of the failed chunk. -/
theorem chunk_failure_counterexample :
    ((chunksOf 100 ((List.range 150).map (fun k => toString k))).map
      List.length = [100, 50]) ∧
    bulkHelper (fun c => decide (c.length = 100))
      ((List.range 150).map (fun k => toString k)) = (BulkOutcome.exn, 1) ∧
    (chunksOf 100 ((List.range 150).map (fun k => toString k))).length = 2 ∧
    (remove_documents false ((List.range 150).map (fun k => toString k)).toFinset
        BulkOutcome.exn ⟨150, 0, 0, 0, 0⟩).2.2.errors = 150 ∧
    (150 : Nat) ≠ 100 := by
  refine ⟨by decide, by decide, by decide, by decide, by decide⟩

/-- C3 amended: when the bulk helper raises (as it does on a failed chunk
under its default raise-on-error behaviour), `errors` grows by the size of
the entire removal set of that type — not just the failed chunk — the
remaining chunks of that call are not attempted, that type's removed counter
stays 0, and the remaining cleanup types still execute with their outcomes
reflected in the final stats. -/
theorem chunk_failure_amended (documents : List Doc) (strategy : String)
    (thr : ℚ) (sim : String → String → ℚ) (sample : List Doc → List Doc)
    (n : Nat)
    (hne : select_documents_to_keep (find_url_duplicates documents) strategy
      ≠ ∅) :
    (run_cleanup documents ["url", "content"] strategy thr false sim sample
        BulkOutcome.exn (BulkOutcome.result n []) (BulkOutcome.result 0 [])).1 =
      ⟨documents.length, 0,
       (select_documents_to_keep (find_content_duplicates documents) strategy).card,
       (select_documents_to_keep (find_content_duplicates documents) strategy).card,
       (select_documents_to_keep (find_url_duplicates documents) strategy).card⟩ := by
  have hu : ("url" ∈ (["url", "content"] : List String)) := by decide
  have hc : ("content" ∈ (["url", "content"] : List String)) := by decide
  have hs : ¬ ("similar" ∈ (["url", "content"] : List String)) := by decide
  unfold run_cleanup
  simp [hu, hc, hs, hne, cleanup_url_exn documents strategy, cleanup_content_ok]

/-- Witness for the amended C3 on the concrete duplicate pair: the url bulk
call raises, errors ends at 1 (the whole url removal set), the content type
still removes its 1 document, and the final stats reflect both. -/
theorem chunk_failure_amended_witness :
    (select_documents_to_keep (find_url_duplicates [dupDocA, dupDocB]) "latest"
      ≠ ∅) ∧
    (run_cleanup [dupDocA, dupDocB] ["url", "content"] "latest" 0 false simZero
        id BulkOutcome.exn (BulkOutcome.result 5 [])
        (BulkOutcome.result 0 [])).1 =
      ⟨([dupDocA, dupDocB] : List Doc).length, 0,
       (select_documents_to_keep
         (find_content_duplicates [dupDocA, dupDocB]) "latest").card,
       (select_documents_to_keep
         (find_content_duplicates [dupDocA, dupDocB]) "latest").card,
       (select_documents_to_keep
         (find_url_duplicates [dupDocA, dupDocB]) "latest").card⟩ :=
  ⟨by decide,
   chunk_failure_amended [dupDocA, dupDocB] "latest" 0 simZero id 5 (by decide)⟩

lemma keepSelect_invalid (strategy : String) (docs : List Doc)
    (h1 : strategy ≠ "latest") (h2 : strategy ≠ "longest_content")
    (h3 : strategy ≠ "first") : keepSelect strategy docs = ∅ := by
  cases docs with
  | nil => rfl
  | cons hd tl =>
    simp only [keepSelect]
    rw [if_neg h1, if_neg h2, if_neg h3]

lemma select_invalid (groups : List (String × List Doc)) (strategy : String)
    (h1 : strategy ≠ "latest") (h2 : strategy ≠ "longest_content")
    (h3 : strategy ≠ "first") :
    select_documents_to_keep groups strategy = ∅ := by
  unfold select_documents_to_keep
  induction groups with
  | nil => rfl
  | cons g gs ih =>
    rw [List.foldl_cons]
    have hg : (if g.2.length ≤ 1 then (∅ : Finset String)
        else ∅ ∪ keepSelect strategy g.2) = ∅ := by
      by_cases hlen : g.2.length ≤ 1
      · rw [if_pos hlen]
      · rw [if_neg hlen, keepSelect_invalid strategy g.2 h1 h2 h3,
          Finset.union_empty]
    rw [hg]
    exact ih

/-- C7 counterexample: `run_cleanup` with unknown strategy "bogus" and a
similarity threshold of 3/2 (outside [0,1]) raises nothing: it scans the
store (processed = 2), selects nothing, and returns normal stats with zero
errors — no InvalidConfiguration rejection happens before store access. -/
theorem invalid_config_counterexample :
    (run_cleanup [dupDocA, dupDocB] ["url", "content"] "bogus" ((3 : ℚ)/2) true
        simZero id (BulkOutcome.result 0 []) (BulkOutcome.result 0 [])
        (BulkOutcome.result 0 [])).1 = ⟨2, 0, 0, 0, 0⟩ ∧
    (run_cleanup [dupDocA, dupDocB] ["url", "content"] "bogus" ((3 : ℚ)/2) true
        simZero id (BulkOutcome.result 0 []) (BulkOutcome.result 0 [])
        (BulkOutcome.result 0 [])).2 = 0 := by
  refine ⟨by decide, by decide⟩

/-- C7 amended: no configuration validation exists.  An unrecognized strategy
name makes every selection empty, so `run_cleanup` completes normally after
scanning the store, reporting zero removals, zero errors and invoking no bulk
delete; an out-of-range similarity threshold is likewise accepted without
validation (it is passed straight to the similarity comparison). -/
theorem invalid_config_amended (documents : List Doc)
    (cleanup_types : List String) (strategy : String) (thr : ℚ) (dry : Bool)
    (sim : String → String → ℚ) (sample : List Doc → List Doc)
    (oUrl oContent oSimilar : BulkOutcome)
    (h1 : strategy ≠ "latest") (h2 : strategy ≠ "longest_content")
    (h3 : strategy ≠ "first") :
    (run_cleanup documents cleanup_types strategy thr dry sim sample
        oUrl oContent oSimilar).1 = ⟨documents.length, 0, 0, 0, 0⟩ ∧
    (run_cleanup documents cleanup_types strategy thr dry sim sample
        oUrl oContent oSimilar).2 = 0 := by
  have hsel : ∀ groups, select_documents_to_keep groups strategy = ∅ :=
    fun groups => select_invalid groups strategy h1 h2 h3
  have hurl : ∀ o s, cleanup_url_duplicates documents strategy dry o s =
      (0, { s with url_duplicates_removed := 0 }, false) := by
    intro o s
    unfold cleanup_url_duplicates
    simp only [hsel, remove_documents_empty]
    rfl
  have hcontent : ∀ o s, cleanup_content_duplicates documents strategy dry o s =
      (0, { s with content_duplicates_removed := 0 }, false) := by
    intro o s
    unfold cleanup_content_duplicates
    simp only [hsel, remove_documents_empty]
    rfl
  have hsim : ∀ o s, cleanup_similar_content documents thr strategy dry
      sim sample o s = (0, s, false) := by
    intro o s
    unfold cleanup_similar_content
    simp only [hsel, remove_documents_empty]
    rfl
  unfold run_cleanup
  by_cases hu : "url" ∈ cleanup_types <;>
    by_cases hc : "content" ∈ cleanup_types <;>
      by_cases hs : "similar" ∈ cleanup_types <;>
        simp [hu, hc, hs, hurl, hcontent, hsim]

/-- Witness for the amended C7 at strategy "bogus" and threshold 3/2 on the
concrete duplicate pair. -/
theorem invalid_config_amended_witness :
    (("bogus" : String) ≠ "latest") ∧
    (("bogus" : String) ≠ "longest_content") ∧
    (("bogus" : String) ≠ "first") ∧
    (run_cleanup [dupDocA, dupDocB] ["url", "content"] "bogus" ((3 : ℚ)/2) false
        simZero id BulkOutcome.exn BulkOutcome.exn BulkOutcome.exn).1 =
      ⟨2, 0, 0, 0, 0⟩ ∧
    (run_cleanup [dupDocA, dupDocB] ["url", "content"] "bogus" ((3 : ℚ)/2) false
        simZero id BulkOutcome.exn BulkOutcome.exn BulkOutcome.exn).2 = 0 :=
  ⟨by decide, by decide, by decide,
   (invalid_config_amended [dupDocA, dupDocB] ["url", "content"] "bogus"
     ((3 : ℚ)/2) false simZero id BulkOutcome.exn BulkOutcome.exn
     BulkOutcome.exn (by decide) (by decide) (by decide)).1,
   (invalid_config_amended [dupDocA, dupDocB] ["url", "content"] "bogus"
     ((3 : ℚ)/2) false simZero id BulkOutcome.exn BulkOutcome.exn
     BulkOutcome.exn (by decide) (by decide) (by decide)).2⟩

end DarkWebScraper
